import Mathlib

/-!
Verification of `pyqtgraph/widgets/ValueLabel.py` (class `ValueLabel`).

Shallow embedding: the widget's mutable state is a `State` record; every
method becomes a function `... → State → State` (or returns a value).
Timestamps, values and errors are modelled as rationals (exact arithmetic in
place of Python floats); operations whose float counterpart produces an
irrational number (`np.std`, `np.sqrt`, `np.log10`) land in `ℝ`.
Operations that raise on an empty buffer (`reduce`, `np.max`, indexing
`values[-1]`, `int(nan)`) return `Option`, with `none` for the failure.
The external collaborators (`str.format`, `pg.siFormat`) are not part of this
file's source; they are taken as opaque function parameters bundled in
`Collaborators`.
-/

namespace ValueLabel

/-- A sample `(timestamp, value, error)` as appended by `setValue`. -/
abbrev Sample : Type := ℚ × ℚ × ℚ

/-- The widget state: the sample buffer `self.values` plus the configuration
fields set in `__init__` (`averageTime`, `suffix`, `siPrefix`,
`self._errorType`, `self._error`, `formatStr`).  `updateCount` counts the
calls to the inherited `QLabel.update()` (request of a visual refresh). -/
structure State where
  values : List Sample
  averageTime : ℚ
  suffix : String
  siPrefix : Bool
  errorType : String
  error : Bool
  formatStr : String
  updateCount : Nat
deriving DecidableEq

/-- `self.update()` — inherited Qt method; only its invocation count is
observable in the model. -/
def update (st : State) : State :=
  { st with updateCount := st.updateCount + 1 }

/-- `__init__`: fresh widget.  When `formatStr is None` the default template
is chosen from the `error` flag (brace characters written as `\x7b`/`\x7d`).
`self.errorType = errorType` and `self.error = error` go through the property
setters; the latter calls `self.update()`, hence `updateCount := 1`. -/
def init (suffix : String) (siPrefix : Bool) (averageTime : ℚ)
    (formatStr : Option String) (error : Bool) (errorType : String) : State :=
  let fs : String :=
    match formatStr with
    | none =>
        if error then
          "\x7bavgValue:.\x7bprecision\x7dg\x7d ± \x7bavgError:.1g\x7d \x7bsuffix\x7d"
        else
          "\x7bavgValue:0.2g\x7d \x7bsuffix\x7d"
    | some s => s
  { values := [], averageTime := averageTime, suffix := suffix,
    siPrefix := siPrefix, errorType := errorType, error := error,
    formatStr := fs, updateCount := 1 }

/-- `setValue(value, error=0)` with the time-source reading `now` passed in
explicitly.  Appends `(now, value, error)`; when `averageTime >= 0` the
`while` loop pops from the front exactly while the oldest sample has
`timestamp < cutoff`, i.e. it is `List.dropWhile`; finally `self.update()`. -/
def setValue (now value err : ℚ) (st : State) : State :=
  let appended : List Sample := st.values ++ [(now, value, err)]
  let pruned : List Sample :=
    if 0 ≤ st.averageTime then
      appended.dropWhile (fun s => decide (s.1 < now - st.averageTime))
    else
      appended
  update { st with values := pruned }

/-- `setFormatStr(text)`. -/
def setFormatStr (text : String) (st : State) : State :=
  update { st with formatStr := text }

/-- `setAverageTime(t)` — a bare field assignment, no `update()` call. -/
def setAverageTime (t : ℚ) (st : State) : State :=
  { st with averageTime := t }

/-- `setError(err)` (also reached through the `error` property setter). -/
def setError (err : Bool) (st : State) : State :=
  update { st with error := err }

/-- `setErrorType(type)` (also the `errorType` property setter); no
`update()` call. -/
def setErrorType (type : String) (st : State) : State :=
  { st with errorType := type }

/-- A sequence of `setValue` calls, each given as `(now, value, error)`. -/
def applyCalls (st : State) (cs : List Sample) : State :=
  cs.foldl (fun s c => setValue c.1 c.2.1 c.2.2 s) st

/-- The buffer's value column `[v[1] for v in self.values]`. -/
def vals (st : State) : List ℚ :=
  st.values.map (fun s => s.2.1)

/-- The buffer's error column `[v[2] for v in self.values]`. -/
def errs (st : State) : List ℚ :=
  st.values.map (fun s => s.2.2)

/-- `reduce(lambda a,b: a+b, l)` — left fold of `+` over a non-empty list;
raises `TypeError` on the empty list, modelled as `none`. -/
def reduceAdd : List ℚ → Option ℚ
  | [] => none
  | x :: xs => some (xs.foldl (· + ·) x)

/-- `averageValue()`: `reduce(lambda a,b: a+b, [v[1] for v in self.values])
/ float(len(self.values))`.  `none` models the empty-buffer failure. -/
def averageValue (st : State) : Option ℚ :=
  (reduceAdd (vals st)).map (fun s => s / (st.values.length : ℚ))

/-- `np.max(l)` — maximum of a list; raises on the empty list (`none`). -/
def npMax : List ℚ → Option ℚ
  | [] => none
  | x :: xs => some (xs.foldl max x)

/-- `np.mean(l)` — arithmetic mean; on the empty list numpy yields `nan`
(unusable downstream), modelled as `none`. -/
def npMean (l : List ℚ) : Option ℚ :=
  if l = [] then none else some (l.sum / (l.length : ℚ))

/-- `np.std(l)` — population standard deviation: the square root of the mean
of the squared deviations from the mean.  On the empty list numpy yields
`nan`, modelled as `none`. -/
noncomputable def npStd (l : List ℚ) : Option ℝ :=
  if l = [] then none
  else
    some (Real.sqrt
      (((l.map (fun v : ℚ =>
          ((v : ℝ) - ((l.sum : ℚ) : ℝ) / (l.length : ℝ)) ^ 2)).sum)
        / (l.length : ℝ)))

/-- `averageError()`: dispatch on the `errorType` string; the `else` branch
(mean of the per-sample errors) is the fallback for any other string. -/
noncomputable def averageError (st : State) : Option ℝ :=
  if st.errorType = "max" then (npMax (errs st)).map (fun q => (q : ℝ))
  else if st.errorType = "stdDev" then npStd (vals st)
  else if st.errorType = "stdErr" then
    (npStd (vals st)).map (fun s => s / Real.sqrt (((vals st).length : ℝ)))
  else (npMean (errs st)).map (fun q => (q : ℝ))

/-- Spec-side definition: the arithmetic mean of a list of rationals. -/
def listMean (l : List ℚ) : ℚ :=
  l.sum / (l.length : ℚ)

/-- Spec-side definition, following the spec's words: the population
standard deviation of a list — square root of (sum of squared deviations
from the mean, divided by the count). -/
noncomputable def popStdDev (l : List ℚ) : ℝ :=
  Real.sqrt (((l.map (fun v => (((v - listMean l : ℚ)) : ℝ) ^ 2)).sum) / (l.length : ℝ))

/-- `np.floor(np.log10(x))` followed by `int(...)`: defined for `x > 0`;
for `x ≤ 0` the logarithm is `nan`/`-inf` and the `int()` conversion raises,
modelled as `none`. -/
noncomputable def floorLog10 (x : ℝ) : Option ℤ :=
  if 0 < x then some ⌊Real.logb 10 x⌋ else none

/-- The display precision computed in `generateText` before rendering the
template: `2` when `avg == 0 or avg_err == 0`, otherwise
`np.floor(np.log10(avg)) - np.floor(np.log10(avg_err)) + 1` cast by `int`. -/
noncomputable def precision (avg : ℚ) (avgErr : ℝ) : Option ℤ :=
  if avg = 0 ∨ avgErr = 0 then some 2
  else (floorLog10 ((avg : ℝ))).bind (fun a =>
    (floorLog10 avgErr).map (fun b => a - b + 1))

/-- Python `s.strip(' ')`: remove the leading and trailing space characters
(and only spaces). -/
def stripSpaces (s : String) : String :=
  String.mk (((s.data.dropWhile (fun c => decide (c = ' '))).reverse.dropWhile
    (fun c => decide (c = ' '))).reverse)

/-- Arguments bound by `self.formatStr.format(value=..., avgValue=...,
suffix=..., error=..., avgError=..., precision=int(prec))`. -/
structure FmtErrArgs where
  value : ℚ
  avgValue : ℚ
  suffix : String
  error : ℚ
  avgError : ℝ
  precision : ℤ

/-- Arguments bound by `self.formatStr.format(value=..., avgValue=...,
suffix=...)` on the no-error path. -/
structure FmtPlainArgs where
  value : ℚ
  avgValue : ℚ
  suffix : String

/-- The external collaborators `generateText` delegates to: the `str.format`
template renderer (first argument: the template `self.formatStr`) in its two
call shapes, and `pg.siFormat` in its two call shapes
(`siFormatErr avg suffix error groupedError precision space`). -/
structure Collaborators where
  format : String → FmtErrArgs → String
  formatPlain : String → FmtPlainArgs → String
  siFormat : ℚ → String → String
  siFormatErr : ℚ → String → ℝ → Bool → Nat → Bool → String

/-- `generateText()`, with the calls `self.averageValue()` and
`self.averageError()` abstracted as parameters `avgF`/`errF` (the method
dispatch), so that non-dependence on them on the empty-buffer path is
expressible.  `values[-1]` is `List.getLast?`; `none` models an uncaught
exception escaping the method. -/
noncomputable def generateTextAux (collab : Collaborators)
    (avgF : State → Option ℚ) (errF : State → Option ℝ) (st : State) :
    Option String :=
  if st.values = [] then some ""
  else
    (avgF st).bind (fun avg =>
    (st.values.getLast?).bind (fun last =>
    if st.error then
      (errF st).bind (fun avgErr =>
        if st.siPrefix then
          some ((collab.siFormatErr avg st.suffix avgErr true 6 false).replace
            " " "&nbsp;")
        else
          (precision avg avgErr).map (fun prec =>
            stripSpaces (collab.format st.formatStr
              { value := last.2.1, avgValue := avg, suffix := st.suffix,
                error := last.2.2, avgError := avgErr, precision := prec })))
    else
      if st.siPrefix then some (collab.siFormat avg st.suffix)
      else
        some (stripSpaces (collab.formatPlain st.formatStr
          { value := last.2.1, avgValue := avg, suffix := st.suffix }))))

/-- `generateText()` proper: the method calls `self.averageValue()` and
`self.averageError()`. -/
noncomputable def generateText (collab : Collaborators) (st : State) :
    Option String :=
  generateTextAux collab averageValue averageError st

/-- `generateText()` in state-passing form: the method body contains no
assignment to `self`, so the state component is returned unchanged. -/
noncomputable def generateTextS (collab : Collaborators) (st : State) :
    Option String × State :=
  (generateTextAux collab averageValue averageError st, st)

/-- Timestamp order on samples (strict). -/
def tsLT (a b : Sample) : Prop := a.1 < b.1

/-- Timestamp order on samples (non-strict). -/
def tsLE (a b : Sample) : Prop := a.1 ≤ b.1

instance : IsTrans Sample tsLT := ⟨fun _ _ _ h1 h2 => lt_trans h1 h2⟩

instance : DecidableRel tsLT := fun a b => inferInstanceAs (Decidable (a.1 < b.1))

/-- A trivial set of collaborators (every formatter returns `""`), used to
instantiate universally quantified collaborator arguments. -/
def nullCollab : Collaborators :=
  ⟨fun _ _ => "", fun _ _ => "", fun _ _ => "", fun _ _ _ _ _ _ => ""⟩

/-- Collaborators whose error-path template renderer reports whether the
`precision` field bound by `generateText` equals `p`. -/
def precProbe (p : ℤ) : Collaborators :=
  ⟨fun _ a => if a.precision = p then "OK" else "BAD",
   fun _ _ => "", fun _ _ => "", fun _ _ _ _ _ _ => ""⟩

/-- A concrete three-sample state (values `1,2,3`, errors `1/10,1/2,1/5`),
used to instantiate theorems with hypotheses. -/
def exState : State :=
  ⟨[(0, 1, 1/10), (1, 2, 1/2), (2, 3, 1/5)], -1, "", false, "avg", false, "", 0⟩

/-- A concrete one-sample state with the `error` flag on. -/
def exErrState : State :=
  ⟨[(0, 1, 1)], -1, "", false, "avg", true, "", 0⟩

/-! ### Helper lemmas -/

lemma foldl_add_eq_sum (xs : List ℚ) (x : ℚ) : xs.foldl (· + ·) x = x + xs.sum := by
  induction xs generalizing x with
  | nil => simp
  | cons a t ih => simp [ih, List.sum_cons, add_assoc]

lemma le_foldl_max (xs : List ℚ) (x : ℚ) : x ≤ xs.foldl max x := by
  induction xs generalizing x with
  | nil => exact le_refl x
  | cons a t ih => exact le_trans (le_max_left x a) (ih (max x a))

lemma mem_le_foldl_max (xs : List ℚ) (x y : ℚ) (h : y ∈ xs) : y ≤ xs.foldl max x := by
  induction xs generalizing x with
  | nil => cases h
  | cons a t ih =>
    rcases List.mem_cons.1 h with h1 | h2
    · subst h1
      exact le_trans (le_max_right x y) (le_foldl_max t (max x y))
    · exact ih (max x a) h2

lemma foldl_max_mem (xs : List ℚ) (x : ℚ) : xs.foldl max x ∈ x :: xs := by
  induction xs generalizing x with
  | nil => simp
  | cons a t ih =>
    have h := ih (max x a)
    rcases List.mem_cons.1 h with h1 | h2
    · rcases max_choice x a with hx | ha
      · rw [List.foldl_cons, h1, hx]; simp
      · rw [List.foldl_cons, h1, ha]; simp
    · simp only [List.foldl_cons, List.mem_cons]
      right; right; exact h2

lemma dropWhile_append_last {α : Type} (p : α → Bool) (l : List α) (a : α)
    (h : p a = false) : (l ++ [a]).dropWhile p = l.dropWhile p ++ [a] := by
  induction l with
  | nil => simp [List.dropWhile, h]
  | cons b t ih =>
    cases hb : p b with
    | true => simp [List.dropWhile_cons, hb, ih]
    | false => simp [List.dropWhile_cons, hb]

lemma dropWhile_head_false {α : Type} (p : α → Bool) :
    ∀ (l : List α) (y : α) (l' : List α), l.dropWhile p = y :: l' → p y = false := by
  intro l
  induction l with
  | nil => intro y l' h; simp [List.dropWhile] at h
  | cons a t ih =>
    intro y l' h
    cases hpa : p a with
    | true =>
      rw [List.dropWhile_cons_of_pos hpa] at h
      exact ih y l' h
    | false =>
      rw [List.dropWhile_cons_of_neg (by simp [hpa])] at h
      injection h with h1 _
      subst h1
      exact hpa

lemma setValue_averageTime_eq (now value err : ℚ) (st : State) :
    (setValue now value err st).averageTime = st.averageTime := rfl

lemma setValue_values_eq (now value err : ℚ) (st : State) :
    (setValue now value err st).values =
      if 0 ≤ st.averageTime then
        (st.values ++ [(now, value, err)]).dropWhile
          (fun s => decide (s.1 < now - st.averageTime))
      else st.values ++ [(now, value, err)] := rfl

lemma applyCalls_cons (st : State) (c : Sample) (t : List Sample) :
    applyCalls st (c :: t) = applyCalls (setValue c.1 c.2.1 c.2.2 st) t := rfl

lemma applyCalls_averageTime (st : State) (cs : List Sample) :
    (applyCalls st cs).averageTime = st.averageTime := by
  induction cs generalizing st with
  | nil => rfl
  | cons c t ih => rw [applyCalls_cons, ih, setValue_averageTime_eq]

lemma applyCalls_append_one (st : State) (l : List Sample) (c : Sample) :
    applyCalls st (l ++ [c]) = setValue c.1 c.2.1 c.2.2 (applyCalls st l) := by
  simp [applyCalls, List.foldl_append]

/-! ### Claim theorems -/

/-- C8: `setAverageTime(t)` changes only the `averageTime` field: the sample
buffer, all other configuration fields and the update-request count are
unchanged (no visual refresh is requested). -/
theorem setAverageTime_frame (t : ℚ) (st : State) :
    (setAverageTime t st).averageTime = t ∧
    (setAverageTime t st).values = st.values ∧
    (setAverageTime t st).suffix = st.suffix ∧
    (setAverageTime t st).siPrefix = st.siPrefix ∧
    (setAverageTime t st).errorType = st.errorType ∧
    (setAverageTime t st).error = st.error ∧
    (setAverageTime t st).formatStr = st.formatStr ∧
    (setAverageTime t st).updateCount = st.updateCount :=
  ⟨rfl, rfl, rfl, rfl, rfl, rfl, rfl, rfl⟩

/-- C7: `generateText()` is deterministic in the widget state and does not
modify it: in state-passing form the state comes back unchanged, a repeated
call returns the identical string, and the returned string is the pure
`generateText` of the state. -/
theorem generateText_pure (collab : Collaborators) (st : State) :
    (generateTextS collab st).2 = st ∧
    (generateTextS collab ((generateTextS collab st).2)).1 =
      (generateTextS collab st).1 ∧
    (generateTextS collab st).1 = generateText collab st :=
  ⟨rfl, rfl, rfl⟩

/-- C9: after every `setValue` call — any `averageTime`, any prior state —
the buffer is non-empty and its last element is the just-appended sample. -/
theorem setValue_last_is_new_sample (st : State) (now value err : ℚ) :
    (setValue now value err st).values ≠ [] ∧
    (setValue now value err st).values.getLast? = some (now, value, err) := by
  rw [setValue_values_eq]
  by_cases h : 0 ≤ st.averageTime
  · have hp : decide (((now, value, err) : Sample).1 < now - st.averageTime)
        = false := by
      simp only [decide_eq_false_iff_not, not_lt]
      linarith
    rw [if_pos h, dropWhile_append_last
      (fun s : Sample => decide (s.1 < now - st.averageTime)) st.values
      (now, value, err) hp]
    exact ⟨by simp, by simp⟩
  · rw [if_neg h]
    exact ⟨by simp, by simp⟩

/-- C10: when `averageTime >= 0`, eviction removes only a contiguous prefix
of the (appended) buffer: every evicted sample is older than the cutoff, and
the first retained sample — the new head, if the buffer is non-empty — is
not older than the cutoff; everything after it is kept untouched. -/
theorem setValue_evicts_prefix (st : State) (now value err : ℚ)
    (h : 0 ≤ st.averageTime) :
    ∃ evicted : List Sample,
      evicted ++ (setValue now value err st).values =
        st.values ++ [(now, value, err)] ∧
      (∀ x ∈ evicted, x.1 < now - st.averageTime) ∧
      (∀ y l', (setValue now value err st).values = y :: l' →
        ¬ y.1 < now - st.averageTime) := by
  have hval : (setValue now value err st).values =
      (st.values ++ [(now, value, err)]).dropWhile
        (fun s => decide (s.1 < now - st.averageTime)) := by
    rw [setValue_values_eq, if_pos h]
  refine ⟨(st.values ++ [(now, value, err)]).takeWhile
    (fun s => decide (s.1 < now - st.averageTime)), ?_, ?_, ?_⟩
  · rw [hval, List.takeWhile_append_dropWhile]
  · intro x hx
    simpa using List.mem_takeWhile_imp hx
  · intro y l' hy
    rw [hval] at hy
    simpa using dropWhile_head_false _ _ y l' hy

/-- C5: when `averageTime < 0` no eviction occurs: after any sequence of
`setValue` calls with arbitrary timestamps, the buffer length equals the
initial length plus the number of calls (the buffer never shrinks). -/
theorem applyCalls_length_of_neg_averageTime (st : State) (cs : List Sample)
    (h : st.averageTime < 0) :
    (applyCalls st cs).values.length = st.values.length + cs.length := by
  induction cs generalizing st with
  | nil => simp [applyCalls]
  | cons c t ih =>
    rw [applyCalls_cons, ih _ (by rwa [setValue_averageTime_eq])]
    have h3 : (setValue c.1 c.2.1 c.2.2 st).values =
        st.values ++ [(c.1, c.2.1, c.2.2)] := by
      rw [setValue_values_eq, if_neg (not_le.2 h)]
    rw [h3]
    simp
    omega

/-- C3: `averageValue()` returns the arithmetic mean (sum of the retained
values divided by the sample count) on a non-empty buffer, and fails
(`none`, the empty-reduction / division-by-zero failure) on an empty one. -/
theorem averageValue_spec (st : State) :
    (st.values = [] → averageValue st = none) ∧
    (st.values ≠ [] →
      averageValue st = some ((vals st).sum / ((vals st).length : ℚ))) := by
  constructor
  · intro h
    simp [averageValue, vals, h, reduceAdd]
  · intro h
    obtain ⟨a, t, hat⟩ : ∃ a t, st.values = a :: t := by
      cases hv : st.values with
      | nil => exact absurd hv h
      | cons a t => exact ⟨a, t, rfl⟩
    simp only [averageValue, vals, hat, List.map_cons, reduceAdd,
      Option.map_some, foldl_add_eq_sum, List.sum_cons]
    simp

/-- C4: on an empty buffer `generateText()` returns the empty string for
every configuration and every pair of collaborator formatters, and the
result does not depend on `averageValue`/`averageError` (both are abstracted
as arbitrary functions `avgF`/`errF`), so their empty-buffer failure is
unreachable through the rendering path. -/
theorem generateText_empty (collab : Collaborators) (avgF : State → Option ℚ)
    (errF : State → Option ℝ) (st : State) (h : st.values = []) :
    generateText collab st = some "" ∧
    generateTextAux collab avgF errF st = some "" := by
  constructor <;> simp [generateText, generateTextAux, h]

/-! ### The sliding-window invariant (C1) -/

lemma pairwise_le_last (l : List Sample) (d : Sample)
    (h : List.Pairwise tsLE (l ++ [d])) : ∀ a ∈ l ++ [d], a.1 ≤ d.1 := by
  intro a ha
  rcases List.mem_append.1 ha with h1 | h2
  · exact (List.pairwise_append.1 h).2.2 a h1 d (by simp)
  · have h3 : a = d := by simpa using h2
    subst h3
    exact le_refl _

/-- On a buffer sorted by timestamp, the front-eviction loop removes exactly
the samples older than the cutoff. -/
lemma dropWhile_eq_filter_of_sorted (cut : ℚ) :
    ∀ (l : List Sample), List.Pairwise tsLE l →
      l.dropWhile (fun s => decide (s.1 < cut)) =
        l.filter (fun s => decide (cut ≤ s.1)) := by
  intro l
  induction l with
  | nil => intro _; rfl
  | cons a t ih =>
    intro h
    by_cases hc : a.1 < cut
    · rw [List.dropWhile_cons_of_pos (by simpa using hc),
        List.filter_cons_of_neg (by simpa using not_le.2 hc)]
      exact ih h.of_cons
    · have hcut : cut ≤ a.1 := not_lt.1 hc
      rw [List.dropWhile_cons_of_neg (by simpa using hc),
        List.filter_cons_of_pos (by simpa using hcut)]
      congr 1
      refine (List.filter_eq_self.2 ?_).symm
      intro b hb
      have hab : tsLE a b := List.rel_of_pairwise_cons h hb
      simpa using le_trans hcut hab

lemma applyCalls_window (T : ℚ) (hT : 0 ≤ T) (cs : List Sample) :
    ∀ (c : Sample) (st : State), st.values = [] → st.averageTime = T →
      List.Chain' tsLT (cs ++ [c]) →
      (applyCalls st (cs ++ [c])).values =
        (cs ++ [c]).filter (fun x => decide (c.1 - T ≤ x.1 ∧ x.1 ≤ c.1)) := by
  induction cs using List.reverseRecOn with
  | nil =>
    intro c st hv ha _
    simp only [List.nil_append]
    rw [show applyCalls st [c] = setValue c.1 c.2.1 c.2.2 st from rfl,
      setValue_values_eq, hv, ha, if_pos hT, List.nil_append,
      show ((c.1, c.2.1, c.2.2) : Sample) = c from rfl,
      List.dropWhile_cons_of_neg
        (by simp only [decide_eq_true_eq, not_lt]; linarith),
      List.filter_cons_of_pos
        (by simp only [decide_eq_true_eq]; exact ⟨by linarith, le_refl _⟩)]
    rfl
  | append_singleton ds d ih =>
    intro c st hv ha hchain
    rw [applyCalls_append_one]
    rcases List.chain'_append.1 hchain with ⟨hX, _, hrel⟩
    have hdc : tsLT d c := hrel d (by simp) c rfl
    have hdc' : d.1 < c.1 := hdc
    have hvalsX := ih d st hv ha hX
    have havgX : (applyCalls st (ds ++ [d])).averageTime = T := by
      rw [applyCalls_averageTime, ha]
    rw [setValue_values_eq, havgX, if_pos hT, hvalsX]
    have hceta : ((c.1, c.2.1, c.2.2) : Sample) = c := rfl
    rw [hceta]
    have hpX : List.Pairwise tsLE (ds ++ [d]) :=
      (List.chain'_iff_pairwise.1 hX).imp (fun h => le_of_lt h)
    have hbound : ∀ a ∈ ds ++ [d], a.1 ≤ d.1 := pairwise_le_last ds d hpX
    have hsorted : List.Pairwise tsLE
        ((ds ++ [d]).filter (fun x => decide (d.1 - T ≤ x.1 ∧ x.1 ≤ d.1)) ++ [c]) := by
      refine List.pairwise_append.2 ⟨hpX.filter _, List.pairwise_singleton _ _, ?_⟩
      intro a ha' b hb
      have hb' : b = c := by simpa using hb
      subst hb'
      have haX : a ∈ ds ++ [d] := List.mem_of_mem_filter ha'
      exact le_trans (hbound a haX) (le_of_lt hdc')
    rw [dropWhile_eq_filter_of_sorted (c.1 - T) _ hsorted]
    have hc1 : [c].filter (fun s : Sample => decide (c.1 - T ≤ s.1)) = [c] := by
      rw [List.filter_cons_of_pos (by simp only [decide_eq_true_eq]; linarith)]
      rfl
    have hc2 : [c].filter
        (fun x : Sample => decide (c.1 - T ≤ x.1 ∧ x.1 ≤ c.1)) = [c] := by
      rw [List.filter_cons_of_pos
        (by simp only [decide_eq_true_eq]; exact ⟨by linarith, le_refl _⟩)]
      rfl
    have hL : ((ds ++ [d]).filter
          (fun x => decide (d.1 - T ≤ x.1 ∧ x.1 ≤ d.1)) ++ [c]).filter
            (fun s : Sample => decide (c.1 - T ≤ s.1)) =
        (ds ++ [d]).filter
          (fun a => decide (c.1 - T ≤ a.1) &&
            decide (d.1 - T ≤ a.1 ∧ a.1 ≤ d.1)) ++ [c] := by
      rw [List.filter_append, hc1, List.filter_filter]
    have hR : ((ds ++ [d]) ++ [c]).filter
          (fun x : Sample => decide (c.1 - T ≤ x.1 ∧ x.1 ≤ c.1)) =
        (ds ++ [d]).filter
          (fun x : Sample => decide (c.1 - T ≤ x.1 ∧ x.1 ≤ c.1)) ++ [c] := by
      rw [List.filter_append, hc2]
    rw [hL, hR]
    congr 1
    apply List.filter_congr
    intro x hx
    have hxd : x.1 ≤ d.1 := hbound x hx
    rw [← Bool.decide_and, decide_eq_decide]
    constructor
    · rintro ⟨h1, _, h3⟩
      exact ⟨h1, le_trans h3 (le_of_lt hdc')⟩
    · rintro ⟨h1, h2⟩
      exact ⟨h1, by linarith, hxd⟩

/-- C1 (counterexample): with `averageTime = 1` and strictly increasing
timestamps `0, 1`, after the second call the buffer still contains the
sample with timestamp `0 = now - T`, which the claimed half-open interval
`(now - T, now]` excludes. -/
theorem setValue_window_open_cex :
    (0 : ℚ) ≤ 1 ∧
    List.Chain' tsLT [((0 : ℚ), (1 : ℚ), (0 : ℚ)), (1, 2, 0)] ∧
    (applyCalls (init "" false 1 none false "avg")
        [(0, 1, 0), (1, 2, 0)]).values ≠
      [((0 : ℚ), (1 : ℚ), (0 : ℚ)), (1, 2, 0)].filter
        (fun x => decide ((1 : ℚ) - 1 < x.1 ∧ x.1 ≤ 1)) := by
  refine ⟨by norm_num, ?_, ?_⟩
  · simp only [List.chain'_cons, List.chain'_singleton, and_true, tsLT]
    norm_num
  · have hv : (applyCalls (init "" false 1 none false "avg")
        [(0, 1, 0), (1, 2, 0)]).values =
          [((0 : ℚ), (1 : ℚ), (0 : ℚ)), (1, 2, 0)] := by
      simp only [applyCalls, List.foldl, setValue, update, init]
      norm_num [List.dropWhile]
    rw [hv]
    norm_num [List.filter]

/-- C1 (amended): for a sequence of `setValue` calls with strictly
increasing timestamps and fixed `averageTime = T ≥ 0`, after each call the
buffer contains exactly the samples whose timestamp lies in the closed
interval `[now - T, now]`, in insertion order, where `now` is the timestamp
of the just-appended (last) sample. -/
theorem setValue_window_closed (T : ℚ) (hT : 0 ≤ T) (sfx : String)
    (si : Bool) (fs : Option String) (er : Bool) (et : String)
    (cs : List Sample) (c : Sample) (hlast : cs.getLast? = some c)
    (hmono : List.Chain' tsLT cs) :
    (applyCalls (init sfx si T fs er et) cs).values =
      cs.filter (fun x => decide (c.1 - T ≤ x.1 ∧ x.1 ≤ c.1)) := by
  have hdecomp : cs.dropLast ++ [c] = cs :=
    List.dropLast_append_getLast? c (Option.mem_def.2 hlast)
  rw [← hdecomp] at hmono ⊢
  exact applyCalls_window T hT cs.dropLast c _ rfl rfl hmono

/-! ### The error statistic (C2) -/

lemma npStd_eq_popStdDev (l : List ℚ) (h : l ≠ []) :
    npStd l = some (popStdDev l) := by
  rw [npStd, if_neg h, popStdDev]
  have hmap : ∀ v : ℚ, ((v : ℝ) - ((l.sum : ℚ) : ℝ) / (l.length : ℝ)) ^ 2 =
      (((v - listMean l : ℚ)) : ℝ) ^ 2 := by
    intro v
    rw [listMean]
    push_cast
    ring
  simp only [hmap]

/-- C2: on a non-empty buffer `averageError()` returns the maximum of the
per-sample errors for `errorType = "max"`, the population standard deviation
of the values for `"stdDev"`, that standard deviation divided by the square
root of the sample count for `"stdErr"`, and the arithmetic mean of the
per-sample errors for every other string (including `"avg"`): the fallback
is not an error. -/
theorem averageError_spec (st : State) (h : st.values ≠ []) :
    (st.errorType = "max" → ∃ m : ℚ, averageError st = some ((m : ℝ)) ∧
      m ∈ errs st ∧ ∀ x ∈ errs st, x ≤ m) ∧
    (st.errorType = "stdDev" →
      averageError st = some (popStdDev (vals st))) ∧
    (st.errorType = "stdErr" →
      averageError st =
        some (popStdDev (vals st) / Real.sqrt (((vals st).length : ℝ)))) ∧
    (st.errorType ≠ "max" → st.errorType ≠ "stdDev" → st.errorType ≠ "stdErr" →
      averageError st = some (((listMean (errs st) : ℚ) : ℝ))) := by
  have hvals : vals st ≠ [] := by simp [vals, h]
  have herrs : errs st ≠ [] := by simp [errs, h]
  refine ⟨?_, ?_, ?_, ?_⟩
  · intro het
    obtain ⟨x, xs, hx⟩ : ∃ x xs, errs st = x :: xs := by
      cases he : errs st with
      | nil => exact absurd he herrs
      | cons x xs => exact ⟨x, xs, rfl⟩
    refine ⟨xs.foldl max x, ?_, ?_, ?_⟩
    · rw [averageError, if_pos het, hx]
      rfl
    · rw [hx]
      exact foldl_max_mem xs x
    · intro z hz
      rw [hx] at hz
      rcases List.mem_cons.1 hz with h1 | h2
      · subst h1
        exact le_foldl_max xs z
      · exact mem_le_foldl_max xs x z h2
  · intro het
    have h1 : ¬ st.errorType = "max" := by rw [het]; decide
    rw [averageError, if_neg h1, if_pos het, npStd_eq_popStdDev _ hvals]
  · intro het
    have h1 : ¬ st.errorType = "max" := by rw [het]; decide
    have h2 : ¬ st.errorType = "stdDev" := by rw [het]; decide
    rw [averageError, if_neg h1, if_neg h2, if_pos het,
      npStd_eq_popStdDev _ hvals]
    rfl
  · intro h1 h2 h3
    rw [averageError, if_neg h1, if_neg h2, if_neg h3, npMean, if_neg herrs]
    rfl

/-! ### The display precision (C6) -/

lemma stripSpaces_OK : stripSpaces "OK" = "OK" := rfl

/-- On the error-displaying, non-SI-prefix path, `generateText` renders the
template with the computed `precision` bound (and fails when the precision
computation fails). -/
lemma generateText_err_branch (collab : Collaborators) (st : State) (avg : ℚ)
    (avgErr : ℝ) (last : Sample) (hne : ¬ st.values = [])
    (herr : st.error = true) (hsi : st.siPrefix = false)
    (havg : averageValue st = some avg) (haerr : averageError st = some avgErr)
    (hlast : st.values.getLast? = some last) :
    generateText collab st = (precision avg avgErr).map (fun prec =>
      stripSpaces (collab.format st.formatStr
        { value := last.2.1, avgValue := avg, suffix := st.suffix,
          error := last.2.2, avgError := avgErr, precision := prec })) := by
  rw [generateText, generateTextAux, if_neg hne, havg, Option.some_bind,
    hlast, Option.some_bind, herr, haerr]
  simp [hsi]

/-- C6: in `generateText()` with error display on and `siPrefix` off, the
precision bound into the template is exactly `2` whenever `avg = 0` or
`avgErr = 0` (no logarithm-of-zero failure), and for positive `avg` and
`avgErr` — the domain on which `log10` is defined — it is exactly
`floor(log10 avg) - floor(log10 avgErr) + 1`.  The bound precision is
observed through a probe formatter that reports whether its `precision`
argument equals the expected value. -/
theorem generateText_precision_spec (st : State) (avg : ℚ) (avgErr : ℝ)
    (hne : st.values ≠ []) (herr : st.error = true) (hsi : st.siPrefix = false)
    (havg : averageValue st = some avg)
    (haerr : averageError st = some avgErr) :
    ((avg = 0 ∨ avgErr = 0) → generateText (precProbe 2) st = some "OK") ∧
    (0 < avg → 0 < avgErr →
      generateText (precProbe (⌊Real.logb 10 ((avg : ℝ))⌋ -
        ⌊Real.logb 10 avgErr⌋ + 1)) st = some "OK") := by
  obtain ⟨last, hlast⟩ := Option.isSome_iff_exists.1 (List.getLast?_isSome.2 hne)
  constructor
  · intro h0
    have hp : precision avg avgErr = some 2 := by
      rw [precision, if_pos h0]
    rw [generateText_err_branch (precProbe 2) st avg avgErr last hne herr hsi
      havg haerr hlast, hp]
    simp [precProbe, stripSpaces_OK]
  · intro h1 h2
    have hne0 : ¬ (avg = 0 ∨ avgErr = 0) := by
      push_neg
      exact ⟨ne_of_gt h1, ne_of_gt h2⟩
    have hp : precision avg avgErr =
        some (⌊Real.logb 10 ((avg : ℝ))⌋ - ⌊Real.logb 10 avgErr⌋ + 1) := by
      rw [precision, if_neg hne0]
      simp only [floorLog10]
      rw [if_pos (by exact_mod_cast h1), if_pos h2]
      rfl
    rw [generateText_err_branch _ st avg avgErr last hne herr hsi
      havg haerr hlast, hp]
    simp [precProbe, stripSpaces_OK]

/-! ### Concrete witnesses -/

theorem setValue_window_closed_witness :
    (applyCalls (init "" false 1 none false "avg")
        [(0, 1, 0), (2, 3, 0)]).values =
      [((0 : ℚ), (1 : ℚ), (0 : ℚ)), (2, 3, 0)].filter
        (fun x => decide (((2 : ℚ), (3 : ℚ), (0 : ℚ)).1 - 1 ≤ x.1 ∧
          x.1 ≤ ((2 : ℚ), (3 : ℚ), (0 : ℚ)).1)) :=
  setValue_window_closed 1 (by norm_num) "" false none false "avg"
    [(0, 1, 0), (2, 3, 0)] ((2 : ℚ), (3 : ℚ), (0 : ℚ)) rfl
    (by simp only [List.chain'_cons, List.chain'_singleton, and_true, tsLT]
        norm_num)

theorem averageError_spec_witness :
    averageError exState = some (((listMean (errs exState) : ℚ) : ℝ)) :=
  (averageError_spec exState (by decide)).2.2.2
    (by decide) (by decide) (by decide)

theorem averageValue_spec_witness :
    averageValue exState =
      some ((vals exState).sum / ((vals exState).length : ℚ)) :=
  (averageValue_spec exState).2 (by decide)

theorem generateText_empty_witness :
    generateText nullCollab (init "" false 0 none false "avg") = some "" ∧
    generateTextAux nullCollab averageValue averageError
      (init "" false 0 none false "avg") = some "" :=
  generateText_empty nullCollab averageValue averageError _ rfl

theorem applyCalls_length_witness :
    (applyCalls (init "" false (-1) none false "avg")
      [(0, 1, 0), (100, 2, 0)]).values.length =
    (init "" false (-1) none false "avg").values.length + 2 :=
  applyCalls_length_of_neg_averageTime _ [(0, 1, 0), (100, 2, 0)]
    (by norm_num [init])

theorem generateText_precision_spec_witness :
    generateText (precProbe (⌊Real.logb 10 (((1 : ℚ) : ℝ))⌋ -
      ⌊Real.logb 10 (((1 : ℚ) : ℝ))⌋ + 1)) exErrState = some "OK" :=
  (generateText_precision_spec exErrState 1 (((1 : ℚ) : ℝ))
    (by decide) rfl rfl
    (by norm_num [averageValue, exErrState, vals, reduceAdd])
    (by
      rw [averageError, if_neg (by decide), if_neg (by decide),
        if_neg (by decide), npMean, if_neg (by decide)]
      norm_num [errs, exErrState])).2
    (by norm_num) (by norm_num)

theorem setValue_evicts_prefix_witness :
    ∃ evicted : List Sample,
      evicted ++ (setValue 3 5 0 (init "" false 1 none false "avg")).values =
        (init "" false 1 none false "avg").values ++ [(3, 5, 0)] ∧
      (∀ x ∈ evicted,
        x.1 < 3 - (init "" false 1 none false "avg").averageTime) ∧
      (∀ y l', (setValue 3 5 0
          (init "" false 1 none false "avg")).values = y :: l' →
        ¬ y.1 < 3 - (init "" false 1 none false "avg").averageTime) :=
  setValue_evicts_prefix _ 3 5 0 (by norm_num [init])

end ValueLabel
